import Mathlib

/-!
# Verification of the web-ble-kit concurrency core

Shallow embedding, in Lean 4, of the concurrency core of the `web-ble-kit`
TypeScript library: the connection state machine (`src/state/state-machine.ts`),
the error taxonomy and default retry classifier (`src/errors/errors.ts`),
the retry/backoff engine (`src/ble/transport.ts`, built on the `p-retry`
package), the per-key operation queue (`src/ble/operation-queue.ts`) and the
connection pool (`src/ble/connection-pool.ts`).

Pure functions are translated to Lean functions; stateful objects become
explicit state records with step functions; the single-threaded JavaScript
event loop becomes a nondeterministic scheduler choosing which in-flight
asynchronous continuation runs next, with each synchronous block of the
source modelled as one atomic step.
-/

namespace WebBleKit

/-! ## Connection state machine (`src/state/state-machine.ts`) -/

/-- `ConnectionState` from `src/types`: one of
`disconnected | connecting | connected | error`. -/
inductive ConnectionState where
  | disconnected
  | connecting
  | connected
  | error
deriving DecidableEq, Repr, Fintype

/-- String rendering of a `ConnectionState`, as the TypeScript string literals. -/
def ConnectionState.toStr : ConnectionState → String
  | .disconnected => "disconnected"
  | .connecting => "connecting"
  | .connected => "connected"
  | .error => "error"

/-- `VALID_TRANSITIONS` table from `state-machine.ts`:
disconnected → connecting; connecting → connected | error | disconnected;
connected → disconnected | error; error → disconnected | connecting. -/
def VALID_TRANSITIONS : ConnectionState → List ConnectionState
  | .disconnected => [.connecting]
  | .connecting => [.connected, .error, .disconnected]
  | .connected => [.disconnected, .error]
  | .error => [.disconnected, .connecting]

/-- The message of the `Error` thrown on a reentrant `transition` call
(`"Cannot transition while another transition is in progress (attempted s -> t)"`). -/
def reentrantMsg (s t : ConnectionState) : String :=
  "Cannot transition while another transition is in progress (attempted "
    ++ s.toStr ++ " -> " ++ t.toStr ++ ")"

/-- The message of the `Error` thrown on an invalid `transition` call
(`"Invalid state transition: s -> t"`). -/
def invalidMsg (s t : ConnectionState) : String :=
  "Invalid state transition: " ++ s.toStr ++ " -> " ++ t.toStr

/-- State of one `createStateMachine` instance.  A transition callback is
modelled by the list of targets it itself tries to `transition` to while it
runs (the reentrancy scenario of the source); `callbacks` is the registered
callback set in registration order. -/
structure SM where
  state : ConnectionState
  isTransitioning : Bool
  callbacks : List (List ConnectionState)
deriving DecidableEq, Repr

/-- `createStateMachine(initialState)`: state := initial, no transition in
progress.  The callback set is supplied here since the model carries
callbacks as data. -/
def createStateMachine (initialState : ConnectionState := .disconnected)
    (callbacks : List (List ConnectionState) := []) : SM :=
  ⟨initialState, false, callbacks⟩

/-- `canTransition(to)` from the source: membership of `to` in
`VALID_TRANSITIONS[state]`. -/
def SM.canTransition (m : SM) (tgt : ConnectionState) : Bool :=
  (VALID_TRANSITIONS m.state).contains tgt

/-- `transition(to)` with explicit fuel bounding the depth of nested calls
made from inside callbacks.  Mirrors the source: reentrancy guard first,
then validity check, then `state := to; isTransitioning := true`, run every
callback (whose own `transition` calls recurse here and are observed as
caught results), and finally clear `isTransitioning`.  Returns the machine,
the call's result (`.error msg` models the thrown `Error`), and the log of
results of the `transition` calls made from inside callbacks, one inner
list per callback. -/
def SM.transitionFuel : Nat → SM → ConnectionState →
    SM × Except String Unit × List (List (Except String Unit))
  | 0, m, _ => (m, Except.error "fuel exhausted", [])
  | fuel + 1, m, tgt =>
    if m.isTransitioning then
      (m, Except.error (reentrantMsg m.state tgt), [])
    else if ¬ m.canTransition tgt then
      (m, Except.error (invalidMsg m.state tgt), [])
    else
      let m1 : SM := { m with state := tgt, isTransitioning := true }
      let run := m1.callbacks.foldl
        (fun (acc : SM × List (List (Except String Unit))) cb =>
          let inner := cb.foldl
            (fun (acc2 : SM × List (Except String Unit)) t =>
              let r := SM.transitionFuel fuel acc2.1 t
              (r.1, acc2.2 ++ [r.2.1]))
            (acc.1, [])
          (inner.1, acc.2 ++ [inner.2]))
        (m1, [])
      ({ run.1 with isTransitioning := false }, Except.ok (), run.2)

/-- `transition(to)`.  Fuel 2 is exact: any `transition` call made from
inside a callback finds `isTransitioning = true` and returns at the guard
without recursing further, so no run ever consumes more than two fuel. -/
def SM.transition (m : SM) (tgt : ConnectionState) :
    SM × Except String Unit × List (List (Except String Unit)) :=
  SM.transitionFuel 2 m tgt

/-- `getState()`. -/
def SM.getState (m : SM) : ConnectionState := m.state

/-! ## Errors and the default retry classifier (`src/errors/errors.ts`) -/

/-- A JavaScript `Error` value as observed by the retry machinery: its
`name` and `message` properties.  The library's own error classes
(`AbortError`, `TimeoutError`, …) set `name` accordingly, so an
`instanceof` test in the source is modelled by a `name` test. -/
structure ErrObj where
  name : String
  message : String
deriving DecidableEq, Repr

/-- JavaScript `haystack.includes(needle)` on character lists: `true` iff
the pattern occurs as a contiguous sublist (an empty pattern matches). -/
def listIncludes : List Char → List Char → Bool
  | _, [] => true
  | [], _ :: _ => false
  | c :: rest, p => p.isPrefixOf (c :: rest) || listIncludes rest p

/-- JavaScript `s.includes(pat)` on strings. -/
def strIncludes (s pat : String) : Bool :=
  listIncludes s.data pat.data

/-- JavaScript `s.toLowerCase()` (ASCII range, which covers every pattern
the classifier matches against). -/
def lowerStr (s : String) : String :=
  ⟨s.data.map Char.toLower⟩

/-- The `nonRetryablePatterns` list of `isTransientBLEError`. -/
def nonRetryablePatterns : List String :=
  ["user cancelled", "user canceled", "user denied", "notallowederror",
   "securityerror", "not found", "no device selected", "permission denied"]

/-- The `retryablePatterns` list of `isTransientBLEError`. -/
def retryablePatterns : List String :=
  ["network", "gatt", "connection", "disconnect", "failed to execute",
   "operation failed", "not connected"]

/-- `isTransientBLEError` from `src/errors/errors.ts`: abort errors are never
retried; timeout errors always are; then the lowercased message and name are
matched first against the non-retryable patterns (match ⇒ `false`), then
against the retryable patterns (match ⇒ `true`); anything else is
non-retryable. -/
def isTransientBLEError (e : ErrObj) : Bool :=
  if e.name == "AbortError" then false
  else if e.name == "TimeoutError" then true
  else
    let message := lowerStr e.message
    let nm := lowerStr e.name
    if nonRetryablePatterns.any (fun p => strIncludes message p || strIncludes nm p) then
      false
    else if retryablePatterns.any (fun p => strIncludes message p || strIncludes nm p) then
      true
    else
      false

/-! ## Retry engine (`src/ble/transport.ts`, `withRetry`)

`withRetry` drives the external `p-retry` package.  `p-retry` is a
dependency, not part of this repository's sources, so its attempt loop is
modelled from its documented contract: attempts are numbered from 1; a
total of `retries + 1` attempts are made; a failed attempt is decorated
with `attemptNumber` and `retriesLeft = retries - (attemptNumber - 1)` and
passed to `onFailedAttempt`; throwing p-retry's `AbortError` stops the
loop immediately (rejecting with the wrapped `Error` and without calling
`onFailedAttempt`); a `TypeError` that is not a network error also stops
the loop immediately.  Delays between attempts are real time and are not
modelled; the claims in scope observe only the delay *values* reported to
`onRetry`, which `withRetry` computes itself. -/

/-- `RetryOptions` from `transport.ts` with the source's defaults.
`signalAborted` models `signal?.aborted` at entry; `hasOnRetry` models
whether an `onRetry` observer was supplied. -/
structure RetryOptions where
  maxAttempts : Int := 3
  initialDelayMs : ℚ := 1000
  maxDelayMs : ℚ := 30000
  backoffMultiplier : ℚ := 2
  jitter : Bool := true
  signalAborted : Bool := false
  hasOnRetry : Bool := false
  isRetryable : ErrObj → Bool := isTransientBLEError

/-- Observable trace of one `withRetry` call: how many times the wrapped
operation was invoked, and the `(attempt, delayMs, error)` arguments of
each `onRetry` invocation, in order. -/
structure RetryTrace where
  opCalls : Nat
  onRetryCalls : List (Nat × ℚ × ErrObj)
deriving DecidableEq, Repr

/-- The delay value `withRetry` reports to `onRetry` for a failed attempt:
`Math.min(effectiveInitialDelay * backoffMultiplier ** (attempt - 1), maxDelayMs)`
where `effectiveInitialDelay = Math.min(initialDelayMs, maxDelayMs)`. -/
def retryDelayMs (o : RetryOptions) (attempt : Nat) : ℚ :=
  min (min o.initialDelayMs o.maxDelayMs * o.backoffMultiplier ^ (attempt - 1))
    o.maxDelayMs

/-- The delay formula as the spec states it:
`min(initialDelay × backoffMultiplier^(attempt−1), maxDelay)` — without the
implementation's clamping of `initialDelay` to `maxDelay` first.  Kept
separate so the two can be compared. -/
def specRetryDelayMs (o : RetryOptions) (attempt : Nat) : ℚ :=
  min (o.initialDelayMs * o.backoffMultiplier ^ (attempt - 1)) o.maxDelayMs

/-- Network-error messages recognized by `p-retry`'s `TypeError` escape
hatch (modelled from the dependency's documented message set). -/
def networkErrorMessages : List String :=
  ["network error", "Failed to fetch",
   "NetworkError when attempting to fetch resource.",
   "The Internet connection appears to be offline.", "Load failed",
   "Network request failed", "fetch failed", "terminated"]

/-- The attempt loop of `withRetry`: `ops n` is the outcome of the `n`-th
invocation (1-based) of the wrapped operation.  First argument is
`retriesLeft` for the current attempt.  On failure: a non-retryable error
(per the configured predicate) is wrapped by the source into p-retry's
`AbortError`, which rejects with a plain `Error` carrying the same message;
a non-network `TypeError` stops the loop; otherwise the failure is reported
to `onRetry` when retries remain, and the loop recurses. -/
def withRetryGo {α : Type} (ops : Nat → Except ErrObj α) (o : RetryOptions) :
    Nat → Nat → RetryTrace → Except ErrObj α × RetryTrace
  | 0, attempt, tr =>
    match ops attempt with
    | .ok v => (.ok v, { tr with opCalls := tr.opCalls + 1 })
    | .error e =>
      let tr1 := { tr with opCalls := tr.opCalls + 1 }
      if ¬ o.isRetryable e then
        (.error ⟨"Error", e.message⟩, tr1)
      else if e.name == "TypeError" && ¬ networkErrorMessages.contains e.message then
        (.error e, tr1)
      else
        (.error e, tr1)
  | rl + 1, attempt, tr =>
    match ops attempt with
    | .ok v => (.ok v, { tr with opCalls := tr.opCalls + 1 })
    | .error e =>
      let tr1 := { tr with opCalls := tr.opCalls + 1 }
      if ¬ o.isRetryable e then
        (.error ⟨"Error", e.message⟩, tr1)
      else if e.name == "TypeError" && ¬ networkErrorMessages.contains e.message then
        (.error e, tr1)
      else
        let tr2 :=
          if o.hasOnRetry then
            { tr1 with onRetryCalls :=
                tr1.onRetryCalls ++ [(attempt, retryDelayMs o attempt, e)] }
          else tr1
        withRetryGo ops o rl (attempt + 1) tr2

/-- `withRetry(operation, options)` from `transport.ts`: rejects with a
`RangeError` when `maxAttempts < 1` without invoking the operation; rejects
with `AbortError` when the signal is already aborted; otherwise runs the
p-retry loop with `retries = maxAttempts - 1`. -/
def withRetryRun {α : Type} (ops : Nat → Except ErrObj α) (o : RetryOptions) :
    Except ErrObj α × RetryTrace :=
  if o.maxAttempts < 1 then
    (.error ⟨"RangeError", "maxAttempts must be >= 1, got " ++ toString o.maxAttempts⟩,
      ⟨0, []⟩)
  else if o.signalAborted then
    (.error ⟨"AbortError", "Operation aborted"⟩, ⟨0, []⟩)
  else
    withRetryGo ops o (o.maxAttempts - 1).toNat 1 ⟨0, []⟩

/-! ## Operation queue (`src/ble/operation-queue.ts`)

`createOperationQueue` keeps one promise chain per key (`queues`), a depth
counter per key (`queueDepths`), and a `cleared` flag.  The model makes the
event loop explicit: an enqueued operation is a pure outcome tagged with a
fresh numeric id (its result handle); a scheduler step `.start k` runs the
next chain link of key `k` (possible only when no link of `k` is mid-run —
the chain sequences links), and `.finish k` settles the running operation.
Maps become functions with `[] `/`0`/`none` for absent entries; the source's
conditional `queues.delete` / `queueDepths.delete` cleanups only remove
empty entries and are unobservable in this representation. -/

/-- `OperationQueueOptions`: `maxConcurrent` (documented default 1) and an
optional abort signal (modelled by whether one was supplied). -/
structure OperationQueueOptions where
  maxConcurrent : Option Nat := none
  hasSignal : Bool := false
deriving DecidableEq, Repr

/-- Scheduling events observed on a queue: operation `id` of lane `key`
began executing / its chain link settled. -/
inductive QEv where
  | started (key : String) (id : Nat)
  | settled (key : String) (id : Nat)
deriving DecidableEq, Repr

/-- State of one `createOperationQueue` instance.  `lanes k` holds the
not-yet-started links of `k`'s promise chain in order; `running k` the link
currently executing, if any; `results` the settled result handles in
settlement order (tagged with their key); `log` every operation admitted to
a lane, in enqueue order. -/
structure QueueState (α : Type) where
  lanes : String → List (Nat × Except String α)
  running : String → Option (Nat × Except String α)
  depths : String → Nat
  cleared : Bool
  aborted : Bool
  results : List (String × Nat × Except String α)
  log : List (String × Nat × Except String α)
  trace : List QEv

/-- A fresh queue. -/
def initQueue {α : Type} : QueueState α :=
  ⟨fun _ => [], fun _ => none, fun _ => 0, false, false, [], [], []⟩

/-- Settle result handle `id` with `out` — a promise settles only once, so
an already-settled handle is left untouched. -/
def settleResult {α : Type} (results : List (String × Nat × Except String α))
    (k : String) (id : Nat) (out : Except String α) :
    List (String × Nat × Except String α) :=
  if results.any (fun r => r.2.1 == id) then results else results ++ [(k, id, out)]

/-- The `finally` of a chain link: `depth = queueDepths.get(key) ?? 1`;
if `depth <= 1` the entry is removed (reads as 0), else decremented. -/
def decDepth (depths : String → Nat) (k : String) : String → Nat :=
  let d := if depths k = 0 then 1 else depths k
  if d ≤ 1 then Function.update depths k 0 else Function.update depths k (d - 1)

/-- The rejection used when the queue's abort signal fired. -/
def abortedErr {α : Type} : Except String α := .error "Operation aborted"

/-- The rejection used once `clear()` was called. -/
def clearedErr {α : Type} : Except String α := .error "Queue has been cleared"

/-- Result-handle ids already in use by this queue (a modelling guard:
distinct enqueue calls return distinct promises). -/
def usedId {α : Type} (s : QueueState α) (id : Nat) : Bool :=
  s.log.any (fun e => e.2.1 == id) || s.results.any (fun r => r.2.1 == id)

/-- `enqueue(key, operation)`: reject immediately when the signal is already
aborted or the queue was cleared (no depth increment, no lane growth);
otherwise increment the key's depth and append the link to the chain. -/
def qEnqueue {α : Type} (s : QueueState α) (k : String) (id : Nat)
    (out : Except String α) : QueueState α :=
  if usedId s id then s
  else if s.aborted then
    { s with results := settleResult s.results k id abortedErr }
  else if s.cleared then
    { s with results := settleResult s.results k id clearedErr }
  else
    { s with
      depths := Function.update s.depths k (s.depths k + 1)
      lanes := Function.update s.lanes k (s.lanes k ++ [(id, out)])
      log := s.log ++ [(k, id, out)] }

/-- The event loop runs the next chain link of key `k` (only possible when
the previous link has settled).  The link re-checks abort/cleared before
invoking the operation: on either, the handle is rejected and the `finally`
decrements the depth without the operation ever starting; otherwise the
operation begins executing. -/
def qStart {α : Type} (s : QueueState α) (k : String) : QueueState α :=
  match s.running k, s.lanes k with
  | none, (id, out) :: rest =>
    let s1 := { s with lanes := Function.update s.lanes k rest }
    if s.aborted then
      { s1 with
        results := settleResult s1.results k id abortedErr
        depths := decDepth s1.depths k }
    else if s.cleared then
      { s1 with
        results := settleResult s1.results k id clearedErr
        depths := decDepth s1.depths k }
    else
      { s1 with
        running := Function.update s.running k (some (id, out))
        trace := s.trace ++ [.started k id] }
  | _, _ => s

/-- The running operation of key `k` completes: its handle settles with the
operation's own outcome (resolve on success, reject on failure — unless the
handle was already rejected by the abort signal), and the link's `finally`
decrements the depth, letting the chain proceed to the next link. -/
def qFinish {α : Type} (s : QueueState α) (k : String) : QueueState α :=
  match s.running k with
  | some (id, out) =>
    { s with
      running := Function.update s.running k none
      results := settleResult s.results k id out
      depths := decDepth s.depths k
      trace := s.trace ++ [.settled k id] }
  | none => s

/-- `clear()`: marks the queue permanently cancelled and clears the depth
map.  Chain links already created keep running and reject when they fire
(`queues.clear()` itself is unobservable: a cleared queue rejects every
later enqueue before reading `queues`). -/
def qClear {α : Type} (s : QueueState α) : QueueState α :=
  { s with cleared := true, depths := fun _ => 0 }

/-- The abort signal fires: every result handle with a registered abort
listener — exactly the admitted, not-yet-settled operations — is rejected
immediately, in registration (= enqueue) order.  Operations already
started keep running; their eventual outcome is discarded. -/
def qFire {α : Type} (opts : OperationQueueOptions) (s : QueueState α) :
    QueueState α :=
  if opts.hasSignal && !s.aborted then
    { s with
      aborted := true
      results := s.log.foldl (fun res e => settleResult res e.1 e.2.1 abortedErr)
        s.results }
  else s

/-- One observable step of a queue and its environment. -/
inductive QStep (α : Type) where
  | enq (key : String) (id : Nat) (out : Except String α)
  | start (key : String)
  | finish (key : String)
  | clearQ
  | fireSignal

/-- Step interpreter.  Note the destructuring `const { signal } = options`
in the source: no step reads `maxConcurrent`. -/
def qstep {α : Type} (opts : OperationQueueOptions) (s : QueueState α) :
    QStep α → QueueState α
  | .enq k id out => qEnqueue s k id out
  | .start k => qStart s k
  | .finish k => qFinish s k
  | .clearQ => qClear s
  | .fireSignal => qFire opts s

/-- Run a queue from fresh on a step sequence. -/
def qrun {α : Type} (opts : OperationQueueOptions) (steps : List (QStep α)) :
    QueueState α :=
  steps.foldl (qstep opts) initQueue

/-- `getQueueDepth(key)`. -/
def getQueueDepth {α : Type} (s : QueueState α) (k : String) : Nat :=
  s.depths k

/-- The settled results belonging to key `k`, in settlement order. -/
def resultsFor {α : Type} (k : String) (s : QueueState α) :
    List (Nat × Except String α) :=
  (s.results.filter (fun e => e.1 == k)).map (fun e => e.2)

/-- The operation currently running on key `k`, as a zero- or one-element
list. -/
def runningFor {α : Type} (k : String) (s : QueueState α) :
    List (Nat × Except String α) :=
  (s.running k).toList

/-- The operations admitted to key `k`'s lane, in enqueue order. -/
def logFor {α : Type} (k : String) (s : QueueState α) :
    List (Nat × Except String α) :=
  (s.log.filter (fun e => e.1 == k)).map (fun e => e.2)

/-- Scan of a queue trace checking, for key `k`, that starts and
settlements strictly alternate with matching ids: the accumulator is
`some r` with `r` the running id (if any), or `none` once violated. -/
def serialScan (k : String) : Option (Option Nat) → QEv → Option (Option Nat)
  | none, _ => none
  | some cur, .started k' id =>
    if k' = k then
      match cur with
      | none => some (some id)
      | some _ => none
    else some cur
  | some cur, .settled k' id =>
    if k' = k then
      match cur with
      | some j => if j = id then some none else none
      | none => none
    else some cur

/-- Key `k`'s operations were strictly serialized in trace `tr`: no
operation started while another of the same key was still running. -/
def serializedFor (k : String) (tr : List QEv) : Bool :=
  (tr.foldl (serialScan k) (some none)).isSome

/-! ## Connection pool (`src/ble/connection-pool.ts`)

`createConnectionPool` keeps `sessions`, `adapters` and `disconnectCleanups`
maps keyed by device id, the `reconnectingDevices` set, and the
`pendingConnections` counter.  Sessions are opaque, so the maps are
modelled by their key sets (insertion-ordered, duplicate-free lists).  The
suspension points of the source — awaiting `adapter.connect`, awaiting
`connectWithRetry` inside `reconnectDevice`, awaiting `session.disconnect`
— split each asynchronous flow into atomic synchronous blocks; the step
relation lets the environment resolve any in-flight await.  Adapters are
taken to support `reconnect` and sessions to support `onDisconnect` (the
optional-capability-absent paths are not exercised by the claims). -/

/-- Pool construction options (`maxConnections` defaults to
`MAX_BLE_CONNECTIONS = 7`, `autoReconnect` to `false`). -/
structure PoolConfig where
  maxConnections : Nat := 7
  autoReconnect : Bool := false
deriving DecidableEq, Repr

/-- Events emitted on the pool's notification emitter. -/
inductive PoolEv where
  | connected (deviceId : String)
  | disconnected (deviceId : String)
deriving DecidableEq, Repr

/-- Invocations of external capabilities, recorded for observation. -/
inductive PoolAct where
  | adapterConnect
  | reconnectAttempt (deviceId : String)
  | sessionTeardown (deviceId : String)
  | discardTeardown (deviceId : String)
deriving DecidableEq, Repr

/-- State of one `createConnectionPool` instance plus its in-flight
asynchronous continuations.  `pendingConnections` also counts the
`connect()` calls suspended at `adapter.connect` (the counter is
incremented exactly when such a call is in flight); `inflightReconnects`
the `reconnectDevice` calls suspended at `connectWithRetry`;
`inflightTeardowns` the `disconnect` calls suspended at
`session.disconnect()`. -/
structure PoolState where
  sessions : List String
  adapters : List String
  disconnectCleanups : List String
  reconnecting : List String
  pendingConnections : Nat
  inflightReconnects : List String
  inflightTeardowns : List String
  events : List PoolEv
  acts : List PoolAct
deriving DecidableEq, Repr

/-- `map.set(k, v)` on a key-set: keeps position if present, appends if
absent. -/
def setKey (l : List String) (k : String) : List String :=
  if l.contains k then l else l ++ [k]

/-- A fresh pool. -/
def initPool : PoolState := ⟨[], [], [], [], 0, [], [], [], []⟩

/-- `handleDisconnect(deviceId)`: on an unexpected disconnect of a tracked
session, remove it (and its cleanup), emit the disconnect event, and — when
auto-reconnect is on and an adapter is stored — run `reconnectDevice` up to
its first await: mark the device as reconnecting and start
`connectWithRetry` on the adapter's `reconnect`.  Without auto-reconnect
the adapter is dropped. -/
def handleDisconnect (cfg : PoolConfig) (s : PoolState) (k : String) : PoolState :=
  if ¬ s.sessions.contains k then s
  else
    let s1 := { s with
      sessions := s.sessions.erase k
      disconnectCleanups := s.disconnectCleanups.erase k
      events := s.events ++ [PoolEv.disconnected k] }
    if cfg.autoReconnect then
      if s1.adapters.contains k then
        { s1 with
          reconnecting := setKey s1.reconnecting k
          inflightReconnects := s1.inflightReconnects ++ [k]
          acts := s1.acts ++ [PoolAct.reconnectAttempt k] }
      else s1
    else { s1 with adapters := s1.adapters.erase k }

/-- The in-flight `reconnectDevice(k)` resolves with a fresh session.  If
the reconnecting marker was cleared in the meantime (the user explicitly
disconnected), the fresh session is torn down and discarded: no re-add, no
connect event.  Otherwise the session is re-registered, its disconnect
handler installed, and the connect event emitted; the `finally` clears the
marker. -/
def reconnectResolve (s : PoolState) (k : String) : PoolState :=
  if ¬ s.inflightReconnects.contains k then s
  else
    let s0 := { s with inflightReconnects := s.inflightReconnects.erase k }
    if ¬ s0.reconnecting.contains k then
      { s0 with acts := s0.acts ++ [PoolAct.discardTeardown k] }
    else
      { s0 with
        sessions := setKey s0.sessions k
        disconnectCleanups := setKey s0.disconnectCleanups k
        events := s0.events ++ [PoolEv.connected k]
        reconnecting := s0.reconnecting.erase k }

/-- The in-flight `reconnectDevice(k)` fails (retries exhausted): the
adapter is dropped and the `finally` clears the marker. -/
def reconnectReject (s : PoolState) (k : String) : PoolState :=
  if ¬ s.inflightReconnects.contains k then s
  else
    { s with
      inflightReconnects := s.inflightReconnects.erase k
      adapters := s.adapters.erase k
      reconnecting := s.reconnecting.erase k }

/-- The synchronous admission prefix of `connect()`: reject when
`sessions.size + pendingConnections >= maxConnections` — before creating an
adapter or invoking its `connect` — else increment the pending counter and
start the adapter connect.  The returned flag is `true` iff the call was
admitted. -/
def poolConnectStart (cfg : PoolConfig) (s : PoolState) : PoolState × Bool :=
  if s.sessions.length + s.pendingConnections ≥ cfg.maxConnections then
    (s, false)
  else
    ({ s with
      pendingConnections := s.pendingConnections + 1
      acts := s.acts ++ [PoolAct.adapterConnect] }, true)

/-- An in-flight `adapter.connect` resolves with a session reporting key
`k`: store the adapter and session under `k`, install the disconnect
handler, emit the connect event, and (`finally`) decrement the pending
counter. -/
def poolConnectResolve (s : PoolState) (k : String) : PoolState :=
  if s.pendingConnections = 0 then s
  else
    { s with
      adapters := setKey s.adapters k
      sessions := setKey s.sessions k
      disconnectCleanups := setKey s.disconnectCleanups k
      events := s.events ++ [PoolEv.connected k]
      pendingConnections := s.pendingConnections - 1 }

/-- An in-flight `adapter.connect` rejects: the `finally` decrements the
pending counter and the error propagates. -/
def poolConnectReject (s : PoolState) : PoolState :=
  if s.pendingConnections = 0 then s
  else { s with pendingConnections := s.pendingConnections - 1 }

/-- The synchronous prefix of `disconnect(key)`: always clear the
reconnecting marker first; an unknown key then resolves as a no-op
(returned flag `false`); a tracked key is removed from every map before its
teardown (`session.disconnect()`) is started. -/
def poolDisconnectStart (s : PoolState) (k : String) : PoolState × Bool :=
  let s0 := { s with reconnecting := s.reconnecting.erase k }
  if ¬ s0.sessions.contains k then (s0, false)
  else
    ({ s0 with
      sessions := s0.sessions.erase k
      adapters := s0.adapters.erase k
      disconnectCleanups := s0.disconnectCleanups.erase k
      inflightTeardowns := s0.inflightTeardowns ++ [k]
      acts := s0.acts ++ [PoolAct.sessionTeardown k] }, true)

/-- The awaited `session.disconnect()` of an explicit `disconnect(key)`
settles: on success the disconnect event is emitted and the call resolves;
on failure the error propagates to the caller — the emit line is never
reached. -/
def poolTeardownFinish (s : PoolState) (k : String) (ok : Bool) :
    PoolState × Except String Unit :=
  if ¬ s.inflightTeardowns.contains k then (s, .ok ())
  else
    let s0 := { s with inflightTeardowns := s.inflightTeardowns.erase k }
    if ok then ({ s0 with events := s0.events ++ [PoolEv.disconnected k] }, .ok ())
    else (s0, .error "teardown failed")

/-- One observable step of the pool and its environment. -/
inductive PoolStep where
  | connectStart
  | connectResolve (deviceId : String)
  | connectReject
  | unexpectedDisconnect (deviceId : String)
  | reconnectResolved (deviceId : String)
  | reconnectRejected (deviceId : String)
  | disconnectStart (deviceId : String)
  | teardownFinish (deviceId : String) (ok : Bool)
deriving DecidableEq, Repr

/-- Step interpreter for the pool. -/
def poolStep (cfg : PoolConfig) (s : PoolState) : PoolStep → PoolState
  | .connectStart => (poolConnectStart cfg s).1
  | .connectResolve k => poolConnectResolve s k
  | .connectReject => poolConnectReject s
  | .unexpectedDisconnect k => handleDisconnect cfg s k
  | .reconnectResolved k => reconnectResolve s k
  | .reconnectRejected k => reconnectReject s k
  | .disconnectStart k => (poolDisconnectStart s k).1
  | .teardownFinish k ok => (poolTeardownFinish s k ok).1

/-- Run a pool from fresh on a step sequence. -/
def poolRun (cfg : PoolConfig) (steps : List PoolStep) : PoolState :=
  steps.foldl (poolStep cfg) initPool

/-- A pool state is reachable if some step sequence produces it. -/
def PoolReachable (cfg : PoolConfig) (s : PoolState) : Prop :=
  ∃ steps, poolRun cfg steps = s

/-- `connectionCount` getter: `sessions.size`. -/
def connectionCount (s : PoolState) : Nat := s.sessions.length

/-- `getSessions()`: a copy of the sessions map (its key set here). -/
def getSessions (s : PoolState) : List String := s.sessions

/-- `isConnected(deviceId)`: `sessions.has(deviceId)`. -/
def isConnected (s : PoolState) (k : String) : Bool := s.sessions.contains k

/-! ## State machine lemmas -/

/-- A `transition` call against a machine that is mid-transition fails at
the reentrancy guard, touching nothing. -/
theorem transitionFuel_busy (n : Nat) (m : SM) (tgt : ConnectionState)
    (h : m.isTransitioning = true) :
    SM.transitionFuel (n + 1) m tgt = (m, Except.error (reentrantMsg m.state tgt), []) := by
  simp [SM.transitionFuel, h]

/-- Every `transition` call a single callback makes while the outer
transition is running returns the reentrancy error and leaves the machine
untouched. -/
theorem cbFold (cb : List ConnectionState) (m : SM) (h : m.isTransitioning = true)
    (acc : List (Except String Unit)) :
    cb.foldl
      (fun (acc2 : SM × List (Except String Unit)) t =>
        let r := SM.transitionFuel 1 acc2.1 t
        (r.1, acc2.2 ++ [r.2.1]))
      (m, acc)
      = (m, acc ++ cb.map fun t => Except.error (reentrantMsg m.state t)) := by
  induction cb generalizing acc with
  | nil => simp
  | cons t ts ih =>
    simp only [List.foldl_cons, List.map_cons]
    rw [show (1 : Nat) = 0 + 1 from rfl, transitionFuel_busy 0 m t h]
    rw [ih]
    simp

/-- Running the whole callback list while the outer transition is in
progress leaves the machine untouched and logs one reentrancy error per
inner `transition` call. -/
theorem cbsFold (cbs : List (List ConnectionState)) (m : SM)
    (h : m.isTransitioning = true) (acc : List (List (Except String Unit))) :
    cbs.foldl
      (fun (acc1 : SM × List (List (Except String Unit))) cb =>
        let inner := cb.foldl
          (fun (acc2 : SM × List (Except String Unit)) t =>
            let r := SM.transitionFuel 1 acc2.1 t
            (r.1, acc2.2 ++ [r.2.1]))
          (acc1.1, [])
        (inner.1, acc1.2 ++ [inner.2]))
      (m, acc)
      = (m, acc ++ cbs.map fun cb => cb.map fun t => Except.error (reentrantMsg m.state t)) := by
  induction cbs generalizing acc with
  | nil => simp
  | cons cb cbs ih =>
    simp only [List.foldl_cons, List.map_cons]
    rw [cbFold cb m h []]
    rw [ih]
    simp

/-- Explicit form of a successful transition: state set to the target,
guard released at the end, callbacks preserved, one reentrancy error
logged per `transition` call made from inside a callback. -/
theorem transition_success (m : SM) (tgt : ConnectionState)
    (h : m.isTransitioning = false) (hc : m.canTransition tgt = true) :
    m.transition tgt
      = (⟨tgt, false, m.callbacks⟩, Except.ok (),
         m.callbacks.map fun cb => cb.map fun t => Except.error (reentrantMsg tgt t)) := by
  have h2 : (⟨tgt, true, m.callbacks⟩ : SM).isTransitioning = true := rfl
  show SM.transitionFuel (1 + 1) m tgt = _
  rw [SM.transitionFuel]
  rw [if_neg (by simp [h]), if_neg (by simp [hc])]
  dsimp only
  rw [cbsFold m.callbacks ⟨tgt, true, m.callbacks⟩ h2 []]
  simp

/-- Explicit form of an invalid transition: rejected, machine untouched. -/
theorem transition_invalid (m : SM) (tgt : ConnectionState)
    (h : m.isTransitioning = false) (hc : ¬ m.canTransition tgt = true) :
    m.transition tgt = (m, Except.error (invalidMsg m.state tgt), []) := by
  simp [SM.transition, SM.transitionFuel, h, hc]

/-- C8: for every machine not mid-transition and every target,
`transition(to)` succeeds iff `(state, to)` is in the allowed-transition
table; when it throws, the machine (hence `getState()`) is unchanged;
`canTransition(to)` returns exactly the table membership; and the table is
exactly {disconnected→connecting; connecting→connected|error|disconnected;
connected→disconnected|error; error→disconnected|connecting}. -/
theorem stateMachine_transition_table (m : SM) (tgt : ConnectionState)
    (h : m.isTransitioning = false) :
    ((m.transition tgt).2.1 = Except.ok () ↔ tgt ∈ VALID_TRANSITIONS m.state)
    ∧ ((m.transition tgt).2.1 ≠ Except.ok () → (m.transition tgt).1 = m)
    ∧ (m.canTransition tgt = true ↔ tgt ∈ VALID_TRANSITIONS m.state)
    ∧ VALID_TRANSITIONS .disconnected = [.connecting]
    ∧ VALID_TRANSITIONS .connecting = [.connected, .error, .disconnected]
    ∧ VALID_TRANSITIONS .connected = [.disconnected, .error]
    ∧ VALID_TRANSITIONS .error = [.disconnected, .connecting] := by
  have hmem : m.canTransition tgt = true ↔ tgt ∈ VALID_TRANSITIONS m.state := by
    simp [SM.canTransition]
  by_cases hc : m.canTransition tgt = true
  · rw [transition_success m tgt h hc]
    refine ⟨by simpa using hmem.mp hc, by simp, hmem, rfl, rfl, rfl, rfl⟩
  · rw [transition_invalid m tgt h hc]
    refine ⟨?_, fun _ => rfl, hmem, rfl, rfl, rfl, rfl⟩
    simp only [reduceCtorEq, false_iff]
    exact fun hm => hc (hmem.mpr hm)

/-- Witness for C8 at a concrete machine (state `connected`, target
`connecting`). -/
theorem stateMachine_transition_table_witness :
    (⟨ConnectionState.connected, false, []⟩ : SM).isTransitioning = false
    ∧ (((((⟨ConnectionState.connected, false, []⟩ : SM).transition .connecting)).2.1 = Except.ok ()
        ↔ ConnectionState.connecting ∈ VALID_TRANSITIONS ConnectionState.connected)
      ∧ ((((⟨ConnectionState.connected, false, []⟩ : SM).transition .connecting)).2.1 ≠ Except.ok ()
        → (((⟨ConnectionState.connected, false, []⟩ : SM).transition .connecting)).1
            = ⟨ConnectionState.connected, false, []⟩)
      ∧ ((⟨ConnectionState.connected, false, []⟩ : SM).canTransition .connecting = true
        ↔ ConnectionState.connecting ∈ VALID_TRANSITIONS ConnectionState.connected)
      ∧ VALID_TRANSITIONS .disconnected = [.connecting]
      ∧ VALID_TRANSITIONS .connecting = [.connected, .error, .disconnected]
      ∧ VALID_TRANSITIONS .connected = [.disconnected, .error]
      ∧ VALID_TRANSITIONS .error = [.disconnected, .connecting]) :=
  ⟨rfl, stateMachine_transition_table ⟨ConnectionState.connected, false, []⟩ .connecting rfl⟩

/-- C9: a valid transition on a guarded machine succeeds; every
`transition` call made from inside a registered callback fails with the
reentrancy error (distinct from every invalid-transition error) and does
not change the state; afterwards the machine is settled on the outer
transition's target. -/
theorem stateMachine_reentrancy (st tgt : ConnectionState)
    (cbs : List (List ConnectionState))
    (h : (⟨st, false, cbs⟩ : SM).canTransition tgt = true) :
    ((⟨st, false, cbs⟩ : SM).transition tgt).2.1 = Except.ok ()
    ∧ ((⟨st, false, cbs⟩ : SM).transition tgt).1 = ⟨tgt, false, cbs⟩
    ∧ ((⟨st, false, cbs⟩ : SM).transition tgt).2.2
        = cbs.map (fun cb => cb.map fun t => Except.error (reentrantMsg tgt t))
    ∧ (∀ a b c d : ConnectionState, reentrantMsg a b ≠ invalidMsg c d) := by
  rw [transition_success _ _ rfl h]
  exact ⟨rfl, rfl, rfl, by decide⟩

/-- Witness for C9: disconnected → connecting with one callback that calls
`transition(connected)` from inside the notification. -/
theorem stateMachine_reentrancy_witness :
    (⟨ConnectionState.disconnected, false, [[ConnectionState.connected]]⟩ : SM).canTransition
        ConnectionState.connecting = true
    ∧ (((⟨ConnectionState.disconnected, false, [[ConnectionState.connected]]⟩ : SM).transition
          ConnectionState.connecting).2.1 = Except.ok ()
      ∧ ((⟨ConnectionState.disconnected, false, [[ConnectionState.connected]]⟩ : SM).transition
          ConnectionState.connecting).1
          = ⟨ConnectionState.connecting, false, [[ConnectionState.connected]]⟩
      ∧ ((⟨ConnectionState.disconnected, false, [[ConnectionState.connected]]⟩ : SM).transition
          ConnectionState.connecting).2.2
          = [[ConnectionState.connected]].map
              (fun cb => cb.map fun t => Except.error (reentrantMsg ConnectionState.connecting t))
      ∧ (∀ a b c d : ConnectionState, reentrantMsg a b ≠ invalidMsg c d)) :=
  ⟨by decide, stateMachine_reentrancy ConnectionState.disconnected ConnectionState.connecting
      [[ConnectionState.connected]] (by decide)⟩

/-! ## Retry classifier (claim C7) -/

/-- The lowercased message or name matches one of the given patterns (the
shape of both pattern loops in `isTransientBLEError`). -/
def matchesAnyPattern (pats : List String) (e : ErrObj) : Bool :=
  pats.any (fun p => strIncludes (lowerStr e.message) p || strIncludes (lowerStr e.name) p)

/-- C7: the default retryability predicate (used by `withRetry` when no
`isRetryable` is supplied) classifies abort errors as non-retryable;
timeout errors as retryable; errors matching a non-retryable pattern
(cancellation, permission/authorization denial, not-found) as
non-retryable; errors matching only a transient-connectivity pattern
(network, GATT, connection, disconnect, …) as retryable; and everything
matching no pattern as non-retryable (fail-fast default). -/
theorem default_retry_classification (e : ErrObj) :
    (e.name = "AbortError" → isTransientBLEError e = false)
    ∧ (e.name = "TimeoutError" → isTransientBLEError e = true)
    ∧ (e.name ≠ "AbortError" → e.name ≠ "TimeoutError" →
        matchesAnyPattern nonRetryablePatterns e = true → isTransientBLEError e = false)
    ∧ (e.name ≠ "AbortError" → e.name ≠ "TimeoutError" →
        matchesAnyPattern nonRetryablePatterns e = false →
        matchesAnyPattern retryablePatterns e = true → isTransientBLEError e = true)
    ∧ (e.name ≠ "AbortError" → e.name ≠ "TimeoutError" →
        matchesAnyPattern nonRetryablePatterns e = false →
        matchesAnyPattern retryablePatterns e = false → isTransientBLEError e = false)
    ∧ (∀ e2 : ErrObj, ({} : RetryOptions).isRetryable e2 = isTransientBLEError e2) := by
  refine ⟨?_, ?_, ?_, ?_, ?_, fun _ => rfl⟩
  · intro h; simp [isTransientBLEError, h]
  · intro h; simp [isTransientBLEError, h]
  · intro h1 h2 h3
    simp only [matchesAnyPattern] at h3
    simp [isTransientBLEError, h1, h2, h3]
  · intro h1 h2 h3 h4
    simp only [matchesAnyPattern] at h3 h4
    simp [isTransientBLEError, h1, h2, h3, h4]
  · intro h1 h2 h3 h4
    simp only [matchesAnyPattern] at h3 h4
    simp [isTransientBLEError, h1, h2, h3, h4]

/-- Witness for C7 at one concrete error per category. -/
theorem default_retry_classification_witness :
    (⟨"AbortError", "aborted"⟩ : ErrObj).name = "AbortError"
    ∧ isTransientBLEError ⟨"AbortError", "aborted"⟩ = false
    ∧ isTransientBLEError ⟨"TimeoutError", "BLE read timed out"⟩ = true
    ∧ (matchesAnyPattern nonRetryablePatterns ⟨"NotAllowedError", "permission denied"⟩ = true
        ∧ isTransientBLEError ⟨"NotAllowedError", "permission denied"⟩ = false)
    ∧ (matchesAnyPattern nonRetryablePatterns ⟨"Error", "device not found"⟩ = true
        ∧ isTransientBLEError ⟨"Error", "device not found"⟩ = false)
    ∧ (matchesAnyPattern nonRetryablePatterns ⟨"Error", "GATT operation failed"⟩ = false
        ∧ matchesAnyPattern retryablePatterns ⟨"Error", "GATT operation failed"⟩ = true
        ∧ isTransientBLEError ⟨"Error", "GATT operation failed"⟩ = true)
    ∧ (matchesAnyPattern nonRetryablePatterns ⟨"Error", "some odd mishap"⟩ = false
        ∧ matchesAnyPattern retryablePatterns ⟨"Error", "some odd mishap"⟩ = false
        ∧ isTransientBLEError ⟨"Error", "some odd mishap"⟩ = false) :=
  ⟨rfl,
   (default_retry_classification ⟨"AbortError", "aborted"⟩).1 rfl,
   (default_retry_classification ⟨"TimeoutError", "BLE read timed out"⟩).2.1 rfl,
   ⟨by decide,
    (default_retry_classification ⟨"NotAllowedError", "permission denied"⟩).2.2.1
      (by decide) (by decide) (by decide)⟩,
   ⟨by decide,
    (default_retry_classification ⟨"Error", "device not found"⟩).2.2.1
      (by decide) (by decide) (by decide)⟩,
   ⟨by decide, by decide,
    (default_retry_classification ⟨"Error", "GATT operation failed"⟩).2.2.2.1
      (by decide) (by decide) (by decide) (by decide)⟩,
   ⟨by decide, by decide,
    (default_retry_classification ⟨"Error", "some odd mishap"⟩).2.2.2.2.1
      (by decide) (by decide) (by decide) (by decide)⟩⟩

/-! ## Retry engine theorems (claims C5, C6) -/

/-- The implementation's reported delay equals the spec's formula whenever
`initialDelay ≤ maxDelay`, or `maxDelay ≥ 0` and the multiplier is at
least 1. -/
theorem retryDelay_eq_spec (o : RetryOptions) (attempt : Nat)
    (h : o.initialDelayMs ≤ o.maxDelayMs ∨ (0 ≤ o.maxDelayMs ∧ 1 ≤ o.backoffMultiplier)) :
    retryDelayMs o attempt = specRetryDelayMs o attempt := by
  by_cases hle : o.initialDelayMs ≤ o.maxDelayMs
  · unfold retryDelayMs specRetryDelayMs
    rw [min_eq_left hle]
  · rcases h with h | ⟨h0, h1⟩
    · exact absurd h hle
    · push_neg at hle
      have hp : (1 : ℚ) ≤ o.backoffMultiplier ^ (attempt - 1) := one_le_pow₀ h1
      have hA : o.maxDelayMs ≤ o.maxDelayMs * o.backoffMultiplier ^ (attempt - 1) :=
        le_mul_of_one_le_right h0 hp
      have hB : o.maxDelayMs ≤ o.initialDelayMs * o.backoffMultiplier ^ (attempt - 1) :=
        le_trans hle.le (le_mul_of_one_le_right (h0.trans hle.le) hp)
      unfold retryDelayMs specRetryDelayMs
      rw [min_eq_right hle.le, min_eq_right hA, min_eq_right hB]

/-- Full evaluation of `withRetry` on the fails-twice-then-succeeds
scenario: three operation invocations, two `onRetry` reports, success.
The errors must not be non-network `TypeError`s, on which p-retry stops
immediately. -/
theorem withRetryRun_eval3 {α : Type} (ops : Nat → Except ErrObj α)
    (o : RetryOptions) (v : α) (e1 e2 : ErrObj)
    (hma : o.maxAttempts = 3) (hsig : o.signalAborted = false) (hcb : o.hasOnRetry = true)
    (h1 : ops 1 = .error e1) (h2 : ops 2 = .error e2) (h3 : ops 3 = .ok v)
    (hr1 : o.isRetryable e1 = true) (hr2 : o.isRetryable e2 = true)
    (ht1 : e1.name = "TypeError" → networkErrorMessages.contains e1.message = true)
    (ht2 : e2.name = "TypeError" → networkErrorMessages.contains e2.message = true) :
    withRetryRun ops o
      = (.ok v, ⟨3, [(1, retryDelayMs o 1, e1), (2, retryDelayMs o 2, e2)]⟩) := by
  have hp1 : ¬ (e1.name = "TypeError" ∧ e1.message ∉ networkErrorMessages) := by
    rintro ⟨hn, hm⟩
    exact hm (by simpa using ht1 hn)
  have hp2 : ¬ (e2.name = "TypeError" ∧ e2.message ∉ networkErrorMessages) := by
    rintro ⟨hn, hm⟩
    exact hm (by simpa using ht2 hn)
  have hrun : withRetryRun ops o = withRetryGo ops o 2 1 ⟨0, []⟩ := by
    rw [withRetryRun, if_neg (by rw [hma]; norm_num), if_neg (by simp [hsig])]
    rw [hma]
    rfl
  rw [hrun]
  simp only [withRetryGo, h1, h2, h3, hr1, hr2, hp1, hp2, hcb, Bool.false_and,
    Bool.not_eq_true, if_true, if_false, not_true, Bool.true_eq_false, reduceIte]
  simp [hp1, hp2]

/-- C5 (amended): `withRetry` with `maxAttempts = 3` and a failure on
invocations 1 and 2 with a retryable error that is not a non-network
`TypeError` (p-retry stops after a single invocation on any `TypeError`
whose message is not a recognized network-error message, even when the
predicate classifies it as retryable — see the counterexample) resolves
with the third invocation's success value, invokes the operation exactly
3 times and `onRetry` exactly twice with attempts 1 then 2; each reported
delay is `min(min(initialDelay, maxDelay) × multiplier^(attempt−1), maxDelay)`
— which is at most `maxDelay` always, and equals the spec's
`min(initialDelay × multiplier^(attempt−1), maxDelay)` whenever
`initialDelay ≤ maxDelay`, or `maxDelay ≥ 0` and `multiplier ≥ 1`. -/
theorem withRetry_three_attempt_scenario {α : Type} (ops : Nat → Except ErrObj α)
    (o : RetryOptions) (v : α) (e1 e2 : ErrObj)
    (hma : o.maxAttempts = 3) (hsig : o.signalAborted = false) (hcb : o.hasOnRetry = true)
    (h1 : ops 1 = .error e1) (h2 : ops 2 = .error e2) (h3 : ops 3 = .ok v)
    (hr1 : o.isRetryable e1 = true) (hr2 : o.isRetryable e2 = true)
    (ht1 : e1.name = "TypeError" → networkErrorMessages.contains e1.message = true)
    (ht2 : e2.name = "TypeError" → networkErrorMessages.contains e2.message = true) :
    (withRetryRun ops o).1 = .ok v
    ∧ (withRetryRun ops o).2.opCalls = 3
    ∧ (withRetryRun ops o).2.onRetryCalls
        = [(1, retryDelayMs o 1, e1), (2, retryDelayMs o 2, e2)]
    ∧ retryDelayMs o 1 ≤ o.maxDelayMs ∧ retryDelayMs o 2 ≤ o.maxDelayMs
    ∧ (o.initialDelayMs ≤ o.maxDelayMs ∨ (0 ≤ o.maxDelayMs ∧ 1 ≤ o.backoffMultiplier) →
        retryDelayMs o 1 = specRetryDelayMs o 1 ∧ retryDelayMs o 2 = specRetryDelayMs o 2) := by
  rw [withRetryRun_eval3 ops o v e1 e2 hma hsig hcb h1 h2 h3 hr1 hr2 ht1 ht2]
  exact ⟨rfl, rfl, rfl, min_le_right _ _, min_le_right _ _,
    fun h => ⟨retryDelay_eq_spec o 1 h, retryDelay_eq_spec o 2 h⟩⟩

/-- Operation failing on invocations 1 and 2 with a retryable network
error and succeeding on invocation 3. -/
def cexOps : Nat → Except ErrObj Nat :=
  fun n => if n = 3 then .ok 42 else .error ⟨"Error", "network error"⟩

/-- A configuration with `initialDelay > maxDelay` and a fractional
multiplier, on which the reported delay differs from the spec formula. -/
def cexOpts : RetryOptions :=
  { maxAttempts := 3, initialDelayMs := 100, maxDelayMs := 10,
    backoffMultiplier := 1 / 2, hasOnRetry := true }

/-- C5 counterexample, two refutations of the claim as stated.  First, in
the claimed scenario with `initialDelay = 100`, `maxDelay = 10`,
`multiplier = 1/2`, the second `onRetry` receives delay 5 while
`min(initialDelay × multiplier^(2−1), maxDelay) = 10` — the claim's delay
formula does not hold (the code clamps `initialDelay` to `maxDelay` before
exponentiating); the delay is still ≤ `maxDelay`.  Second, the error
`TypeError: "connection lost"` is retryable under the default predicate,
yet with `maxAttempts = 3` the operation is invoked exactly once, not 3
times, and `onRetry` never fires — p-retry stops immediately on a
`TypeError` whose message is not a recognized network-error message. -/
theorem withRetry_delay_formula_cex :
    (withRetryRun cexOps cexOpts).1 = .ok 42
    ∧ (withRetryRun cexOps cexOpts).2.opCalls = 3
    ∧ (withRetryRun cexOps cexOpts).2.onRetryCalls
        = [(1, 10, ⟨"Error", "network error"⟩), (2, 5, ⟨"Error", "network error"⟩)]
    ∧ specRetryDelayMs cexOpts 1 = 10 ∧ specRetryDelayMs cexOpts 2 = 10
    ∧ (5 : ℚ) ≠ 10
    ∧ isTransientBLEError ⟨"TypeError", "connection lost"⟩ = true
    ∧ (withRetryRun (fun (_ : Nat) => (.error ⟨"TypeError", "connection lost"⟩ : Except ErrObj Nat))
        ({ maxAttempts := 3, hasOnRetry := true } : RetryOptions)).2.opCalls = 1
    ∧ (withRetryRun (fun (_ : Nat) => (.error ⟨"TypeError", "connection lost"⟩ : Except ErrObj Nat))
        ({ maxAttempts := 3, hasOnRetry := true } : RetryOptions)).2.onRetryCalls = []
    ∧ (withRetryRun (fun (_ : Nat) => (.error ⟨"TypeError", "connection lost"⟩ : Except ErrObj Nat))
        ({ maxAttempts := 3, hasOnRetry := true } : RetryOptions)).1
        = .error ⟨"TypeError", "connection lost"⟩ := by
  have hd1 : retryDelayMs cexOpts 1 = 10 := by
    unfold retryDelayMs cexOpts
    norm_num
  have hd2 : retryDelayMs cexOpts 2 = 5 := by
    unfold retryDelayMs cexOpts
    norm_num
  have he : withRetryRun cexOps cexOpts
      = (.ok 42, ⟨3, [(1, retryDelayMs cexOpts 1, ⟨"Error", "network error"⟩),
          (2, retryDelayMs cexOpts 2, ⟨"Error", "network error"⟩)]⟩) :=
    withRetryRun_eval3 cexOps cexOpts 42 ⟨"Error", "network error"⟩ ⟨"Error", "network error"⟩
      rfl rfl rfl rfl rfl rfl (by decide) (by decide) (by decide) (by decide)
  rw [he, hd1, hd2]
  refine ⟨rfl, rfl, rfl, ?_, ?_, by norm_num, by decide, rfl, rfl, rfl⟩
  · unfold specRetryDelayMs cexOpts; norm_num
  · unfold specRetryDelayMs cexOpts; norm_num

/-- The source's default-ish options for the C5 witness scenario. -/
def witOpts : RetryOptions := { maxAttempts := 3, hasOnRetry := true }

/-- Witness for C5 (amended) at the default delays (1000ms, ×2, cap
30000ms). -/
theorem withRetry_three_attempt_scenario_witness :
    (witOpts.maxAttempts = 3 ∧ witOpts.signalAborted = false ∧ witOpts.hasOnRetry = true
      ∧ cexOps 1 = .error ⟨"Error", "network error"⟩
      ∧ cexOps 2 = .error ⟨"Error", "network error"⟩
      ∧ cexOps 3 = .ok 42
      ∧ witOpts.isRetryable ⟨"Error", "network error"⟩ = true
      ∧ ((⟨"Error", "network error"⟩ : ErrObj).name = "TypeError" →
          networkErrorMessages.contains (⟨"Error", "network error"⟩ : ErrObj).message = true))
    ∧ ((withRetryRun cexOps witOpts).1 = .ok 42
      ∧ (withRetryRun cexOps witOpts).2.opCalls = 3
      ∧ (withRetryRun cexOps witOpts).2.onRetryCalls
          = [(1, retryDelayMs witOpts 1, ⟨"Error", "network error"⟩),
             (2, retryDelayMs witOpts 2, ⟨"Error", "network error"⟩)]
      ∧ retryDelayMs witOpts 1 ≤ witOpts.maxDelayMs
      ∧ retryDelayMs witOpts 2 ≤ witOpts.maxDelayMs
      ∧ (witOpts.initialDelayMs ≤ witOpts.maxDelayMs
          ∨ (0 ≤ witOpts.maxDelayMs ∧ 1 ≤ witOpts.backoffMultiplier) →
          retryDelayMs witOpts 1 = specRetryDelayMs witOpts 1
            ∧ retryDelayMs witOpts 2 = specRetryDelayMs witOpts 2)) :=
  ⟨⟨rfl, rfl, rfl, rfl, rfl, rfl, by decide, by decide⟩,
   withRetry_three_attempt_scenario cexOps witOpts 42
     ⟨"Error", "network error"⟩ ⟨"Error", "network error"⟩
     rfl rfl rfl rfl rfl rfl (by decide) (by decide) (by decide) (by decide)⟩

/-- C6: capacity and configuration errors precede any side effect.  A
`connect()` issued when `connectionCount + pendingConnections` equals
`maxConnections` is rejected with the pool state — entry set, pending
counter and recorded adapter invocations — untouched; `withRetry` with
`maxAttempts < 1` rejects with the `RangeError` and zero operation
invocations. -/
theorem capacity_and_config_rejected_early :
    (∀ (cfg : PoolConfig) (s : PoolState),
        connectionCount s + s.pendingConnections = cfg.maxConnections →
        poolConnectStart cfg s = (s, false))
    ∧ (∀ (o : RetryOptions), o.maxAttempts < 1 →
        ∀ (α : Type) (ops : Nat → Except ErrObj α),
          (withRetryRun ops o).2.opCalls = 0
          ∧ (withRetryRun ops o).1
              = .error ⟨"RangeError", "maxAttempts must be >= 1, got "
                  ++ toString o.maxAttempts⟩) := by
  constructor
  · intro cfg s h
    rw [poolConnectStart, if_pos]
    exact le_of_eq h.symm
  · intro o h α ops
    rw [withRetryRun, if_pos h]
    exact ⟨rfl, rfl⟩

/-- Witness for C6: a pool with capacity 1 holding one session rejects
`connect()` unchanged; `withRetry` with `maxAttempts = 0` rejects with
zero invocations. -/
theorem capacity_and_config_rejected_early_witness :
    (connectionCount (poolRun ⟨1, false⟩ [.connectStart, .connectResolve "A"])
        + (poolRun ⟨1, false⟩ [.connectStart, .connectResolve "A"]).pendingConnections
        = (⟨1, false⟩ : PoolConfig).maxConnections
      ∧ poolConnectStart ⟨1, false⟩ (poolRun ⟨1, false⟩ [.connectStart, .connectResolve "A"])
          = (poolRun ⟨1, false⟩ [.connectStart, .connectResolve "A"], false))
    ∧ (({ maxAttempts := 0 } : RetryOptions).maxAttempts < 1
      ∧ (withRetryRun (fun _ => .ok 0) { maxAttempts := 0 }).2.opCalls = 0
      ∧ (withRetryRun (fun (_ : Nat) => (.ok 0 : Except ErrObj Nat)) { maxAttempts := 0 }).1
          = .error ⟨"RangeError", "maxAttempts must be >= 1, got "
              ++ toString ({ maxAttempts := 0 } : RetryOptions).maxAttempts⟩) :=
  ⟨⟨by decide,
    capacity_and_config_rejected_early.1 ⟨1, false⟩
      (poolRun ⟨1, false⟩ [.connectStart, .connectResolve "A"]) (by decide)⟩,
   ⟨by decide,
    capacity_and_config_rejected_early.2 { maxAttempts := 0 } (by decide) Nat (fun _ => .ok 0)⟩⟩

/-! ## Connection pool theorems (claims C1, C2, C3) -/

/-- C2 (amended): `disconnect(key)` on a key unknown to the pool resolves
without error and changes nothing; on a tracked key it removes the entry,
starts the session teardown and awaits it; when teardown succeeds the
disconnect notification is emitted after it; when teardown rejects the
failure propagates to the caller and no disconnect notification is
emitted. -/
theorem disconnect_semantics (s : PoolState) (k : String) :
    (s.sessions.contains k = false → s.reconnecting.contains k = false →
      poolDisconnectStart s k = (s, false))
    ∧ (s.sessions.contains k = true →
        (poolDisconnectStart s k).2 = true
        ∧ (poolDisconnectStart s k).1.sessions = s.sessions.erase k
        ∧ (poolDisconnectStart s k).1.acts = s.acts ++ [PoolAct.sessionTeardown k]
        ∧ (poolDisconnectStart s k).1.events = s.events
        ∧ (poolDisconnectStart s k).1.inflightTeardowns = s.inflightTeardowns ++ [k])
    ∧ (s.inflightTeardowns.contains k = true →
        ((poolTeardownFinish s k true).2 = .ok ()
          ∧ (poolTeardownFinish s k true).1.events = s.events ++ [PoolEv.disconnected k])
        ∧ ((poolTeardownFinish s k false).2 = .error "teardown failed"
          ∧ (poolTeardownFinish s k false).1.events = s.events)) := by
  refine ⟨?_, ?_, ?_⟩
  · intro hs hr
    have he : s.reconnecting.erase k = s.reconnecting :=
      List.erase_of_not_mem (by simpa using hr)
    rw [poolDisconnectStart]
    simp only [he]
    rw [if_pos (by simpa using hs)]
  · intro hs
    rw [poolDisconnectStart]
    rw [if_neg (by simpa using hs)]
    exact ⟨rfl, rfl, rfl, rfl, rfl⟩
  · intro ht
    constructor
    · rw [poolTeardownFinish, if_neg (by simpa using ht)]
      exact ⟨rfl, rfl⟩
    · rw [poolTeardownFinish, if_neg (by simpa using ht)]
      exact ⟨rfl, rfl⟩

/-- C2 counterexample: connect "A", disconnect it, let the teardown
reject — the call propagates the failure but the disconnect notification
is never emitted, contradicting "emits in both outcomes". -/
theorem disconnect_emit_on_failure_cex :
    (poolRun ⟨7, false⟩ [.connectStart, .connectResolve "A",
        .disconnectStart "A"]).inflightTeardowns.contains "A" = true
    ∧ (poolTeardownFinish (poolRun ⟨7, false⟩ [.connectStart, .connectResolve "A",
        .disconnectStart "A"]) "A" false).2 = .error "teardown failed"
    ∧ (poolTeardownFinish (poolRun ⟨7, false⟩ [.connectStart, .connectResolve "A",
        .disconnectStart "A"]) "A" false).1.events.contains (PoolEv.disconnected "A")
        = false :=
  ⟨by decide, rfl, by decide⟩

/-- Witness for C2 (amended): unknown key "B" is a no-op; tracked key "A"
is removed and torn down; teardown success emits, teardown failure
propagates without emitting. -/
theorem disconnect_semantics_witness :
    ((poolRun ⟨7, false⟩ [.connectStart, .connectResolve "A"]).sessions.contains "B" = false
      ∧ (poolRun ⟨7, false⟩ [.connectStart, .connectResolve "A"]).reconnecting.contains "B" = false
      ∧ poolDisconnectStart (poolRun ⟨7, false⟩ [.connectStart, .connectResolve "A"]) "B"
          = (poolRun ⟨7, false⟩ [.connectStart, .connectResolve "A"], false))
    ∧ ((poolRun ⟨7, false⟩ [.connectStart, .connectResolve "A"]).sessions.contains "A" = true
      ∧ (poolDisconnectStart (poolRun ⟨7, false⟩ [.connectStart, .connectResolve "A"]) "A").2 = true
      ∧ (poolDisconnectStart (poolRun ⟨7, false⟩ [.connectStart, .connectResolve "A"]) "A").1.sessions
          = (poolRun ⟨7, false⟩ [.connectStart, .connectResolve "A"]).sessions.erase "A"
      ∧ (poolDisconnectStart (poolRun ⟨7, false⟩ [.connectStart, .connectResolve "A"]) "A").1.acts
          = (poolRun ⟨7, false⟩ [.connectStart, .connectResolve "A"]).acts ++ [PoolAct.sessionTeardown "A"]
      ∧ (poolDisconnectStart (poolRun ⟨7, false⟩ [.connectStart, .connectResolve "A"]) "A").1.events
          = (poolRun ⟨7, false⟩ [.connectStart, .connectResolve "A"]).events
      ∧ (poolDisconnectStart (poolRun ⟨7, false⟩ [.connectStart, .connectResolve "A"]) "A").1.inflightTeardowns
          = (poolRun ⟨7, false⟩ [.connectStart, .connectResolve "A"]).inflightTeardowns ++ ["A"])
    ∧ ((poolRun ⟨7, false⟩ [.connectStart, .connectResolve "A",
          .disconnectStart "A"]).inflightTeardowns.contains "A" = true
      ∧ ((poolTeardownFinish (poolRun ⟨7, false⟩ [.connectStart, .connectResolve "A",
            .disconnectStart "A"]) "A" true).2 = .ok ()
        ∧ (poolTeardownFinish (poolRun ⟨7, false⟩ [.connectStart, .connectResolve "A",
            .disconnectStart "A"]) "A" true).1.events
            = (poolRun ⟨7, false⟩ [.connectStart, .connectResolve "A",
                .disconnectStart "A"]).events ++ [PoolEv.disconnected "A"])
      ∧ ((poolTeardownFinish (poolRun ⟨7, false⟩ [.connectStart, .connectResolve "A",
            .disconnectStart "A"]) "A" false).2 = .error "teardown failed"
        ∧ (poolTeardownFinish (poolRun ⟨7, false⟩ [.connectStart, .connectResolve "A",
            .disconnectStart "A"]) "A" false).1.events
            = (poolRun ⟨7, false⟩ [.connectStart, .connectResolve "A",
                .disconnectStart "A"]).events)) :=
  ⟨⟨by decide, by decide,
    (disconnect_semantics (poolRun ⟨7, false⟩ [.connectStart, .connectResolve "A"]) "B").1
      (by decide) (by decide)⟩,
   ⟨by decide,
    (disconnect_semantics (poolRun ⟨7, false⟩ [.connectStart, .connectResolve "A"]) "A").2.1
      (by decide)⟩,
   ⟨by decide,
    (disconnect_semantics (poolRun ⟨7, false⟩ [.connectStart, .connectResolve "A",
        .disconnectStart "A"]) "A").2.2 (by decide)⟩⟩

/-- C3: `disconnect(key)` clears the per-key reconnecting marker; an
in-flight reconnect that later resolves against the cleared marker tears
the fresh session down and discards it — the session set is unchanged, no
connect event is emitted. -/
theorem disconnect_wins_over_reconnect (s : PoolState) (k : String) :
    (s.reconnecting.Nodup →
      (poolDisconnectStart s k).1.reconnecting.contains k = false)
    ∧ (s.reconnecting.contains k = false → s.inflightReconnects.contains k = true →
        reconnectResolve s k
          = { s with
              inflightReconnects := s.inflightReconnects.erase k
              acts := s.acts ++ [PoolAct.discardTeardown k] }
        ∧ (reconnectResolve s k).sessions = s.sessions
        ∧ (reconnectResolve s k).events = s.events) := by
  constructor
  · intro hnd
    have : k ∉ s.reconnecting.erase k := by
      simp [List.Nodup.mem_erase_iff hnd]
    rw [poolDisconnectStart]
    by_cases hs : ({ s with reconnecting := s.reconnecting.erase k } : PoolState).sessions.contains k = true
    · rw [if_neg (by simpa using hs)]
      simpa using this
    · rw [if_pos (by simpa using hs)]
      simpa using this
  · intro hr hi
    have hstep : reconnectResolve s k
        = { s with
            inflightReconnects := s.inflightReconnects.erase k
            acts := s.acts ++ [PoolAct.discardTeardown k] } := by
      rw [reconnectResolve, if_neg (by simpa using hi)]
      rw [if_pos (by simpa using hr)]
    refine ⟨hstep, ?_, ?_⟩ <;> rw [hstep]

/-- Witness for C3: connect "A", let it unexpectedly disconnect (starting
an auto-reconnect), call `disconnect("A")` mid-reconnect, then resolve the
reconnect. -/
theorem disconnect_wins_over_reconnect_witness :
    ((poolRun ⟨1, true⟩ [.connectStart, .connectResolve "A",
        .unexpectedDisconnect "A"]).reconnecting.Nodup
      ∧ (poolDisconnectStart (poolRun ⟨1, true⟩ [.connectStart, .connectResolve "A",
          .unexpectedDisconnect "A"]) "A").1.reconnecting.contains "A" = false)
    ∧ ((poolRun ⟨1, true⟩ [.connectStart, .connectResolve "A", .unexpectedDisconnect "A",
          .disconnectStart "A"]).reconnecting.contains "A" = false
      ∧ (poolRun ⟨1, true⟩ [.connectStart, .connectResolve "A", .unexpectedDisconnect "A",
          .disconnectStart "A"]).inflightReconnects.contains "A" = true
      ∧ (reconnectResolve (poolRun ⟨1, true⟩ [.connectStart, .connectResolve "A",
            .unexpectedDisconnect "A", .disconnectStart "A"]) "A"
          = { poolRun ⟨1, true⟩ [.connectStart, .connectResolve "A", .unexpectedDisconnect "A",
                .disconnectStart "A"] with
              inflightReconnects := (poolRun ⟨1, true⟩ [.connectStart, .connectResolve "A",
                .unexpectedDisconnect "A", .disconnectStart "A"]).inflightReconnects.erase "A"
              acts := (poolRun ⟨1, true⟩ [.connectStart, .connectResolve "A",
                .unexpectedDisconnect "A", .disconnectStart "A"]).acts
                  ++ [PoolAct.discardTeardown "A"] }
        ∧ (reconnectResolve (poolRun ⟨1, true⟩ [.connectStart, .connectResolve "A",
            .unexpectedDisconnect "A", .disconnectStart "A"]) "A").sessions
            = (poolRun ⟨1, true⟩ [.connectStart, .connectResolve "A", .unexpectedDisconnect "A",
                .disconnectStart "A"]).sessions
        ∧ (reconnectResolve (poolRun ⟨1, true⟩ [.connectStart, .connectResolve "A",
            .unexpectedDisconnect "A", .disconnectStart "A"]) "A").events
            = (poolRun ⟨1, true⟩ [.connectStart, .connectResolve "A", .unexpectedDisconnect "A",
                .disconnectStart "A"]).events)) :=
  ⟨⟨by decide,
    (disconnect_wins_over_reconnect (poolRun ⟨1, true⟩ [.connectStart, .connectResolve "A",
        .unexpectedDisconnect "A"]) "A").1 (by decide)⟩,
   ⟨by decide, by decide,
    (disconnect_wins_over_reconnect (poolRun ⟨1, true⟩ [.connectStart, .connectResolve "A",
        .unexpectedDisconnect "A", .disconnectStart "A"]) "A").2 (by decide) (by decide)⟩⟩

/-- Interleaving exhibiting the capacity violation: "A" connects (pool of
1 full), unexpectedly disconnects (auto-reconnect starts), "B" connects
(pool full again), and the reconnect then re-adds "A" with no capacity
check. -/
def cexPoolTrace : List PoolStep :=
  [.connectStart, .connectResolve "A", .unexpectedDisconnect "A",
   .connectStart, .connectResolve "B", .reconnectResolved "A"]

/-- C1 counterexample: a reachable state of a pool with
`maxConnections = 1` and auto-reconnect on holds 2 sessions — an
auto-reconnect completing after other `connect()` calls filled the pool
pushes `connectionCount` (and `connectionCount + pendingConnectionCount`)
past `maxConnections`. -/
theorem pool_capacity_invariant_cex :
    PoolReachable ⟨1, true⟩ (poolRun ⟨1, true⟩ cexPoolTrace)
    ∧ connectionCount (poolRun ⟨1, true⟩ cexPoolTrace) = 2
    ∧ (poolRun ⟨1, true⟩ cexPoolTrace).pendingConnections = 0
    ∧ (⟨1, true⟩ : PoolConfig).maxConnections = 1
    ∧ ¬ (connectionCount (poolRun ⟨1, true⟩ cexPoolTrace)
          ≤ (⟨1, true⟩ : PoolConfig).maxConnections) :=
  ⟨⟨cexPoolTrace, rfl⟩, by decide, by decide, rfl, by decide⟩

/-- `map.set` grows a key set by at most one entry. -/
theorem setKey_length_le (l : List String) (k : String) :
    (setKey l k).length ≤ l.length + 1 := by
  unfold setKey
  split
  · omega
  · simp

/-- C1 (amended): in every reachable pool state `connectionCount` equals
the size of the `getSessions()` snapshot; and when auto-reconnect is
disabled, `connectionCount + pendingConnectionCount ≤ maxConnections` at
every observable point — the synchronous admission check plus
pending-counter discipline of `connect()` preserves the bound under any
interleaving of connect, disconnect and unexpected-disconnect steps.  With
auto-reconnect enabled the bound can be exceeded (see the
counterexample). -/
theorem pool_connection_count_invariant (cfg : PoolConfig) (s : PoolState)
    (h : PoolReachable cfg s) :
    connectionCount s = (getSessions s).length
    ∧ (cfg.autoReconnect = false →
        connectionCount s + s.pendingConnections ≤ cfg.maxConnections) := by
  refine ⟨rfl, ?_⟩
  intro hauto
  obtain ⟨steps, rfl⟩ := h
  suffices H : (poolRun cfg steps).inflightReconnects = []
      ∧ connectionCount (poolRun cfg steps) + (poolRun cfg steps).pendingConnections
          ≤ cfg.maxConnections from H.2
  induction steps using List.reverseRecOn with
  | nil => simp [poolRun, initPool, connectionCount]
  | append_singleton l a ih =>
    rw [poolRun, List.foldl_append, List.foldl_cons, List.foldl_nil]
    rw [show List.foldl (poolStep cfg) initPool l = poolRun cfg l from rfl]
    obtain ⟨ih1, ih2⟩ := ih
    set t := poolRun cfg l with ht
    cases a with
    | connectStart =>
      simp only [poolStep, poolConnectStart, connectionCount] at *
      split
      · exact ⟨ih1, ih2⟩
      · next hlt =>
        constructor
        · exact ih1
        · simp only []
          omega
    | connectResolve k =>
      simp only [poolStep, poolConnectResolve, connectionCount] at *
      split
      · exact ⟨ih1, ih2⟩
      · next hp =>
        refine ⟨ih1, ?_⟩
        have := setKey_length_le t.sessions k
        simp only []
        omega
    | connectReject =>
      simp only [poolStep, poolConnectReject, connectionCount] at *
      split
      · exact ⟨ih1, ih2⟩
      · refine ⟨ih1, ?_⟩
        simp only []
        omega
    | unexpectedDisconnect k =>
      simp only [poolStep, handleDisconnect, connectionCount, hauto] at *
      split
      · exact ⟨ih1, ih2⟩
      · have hlen : (t.sessions.erase k).length ≤ t.sessions.length :=
          (List.erase_sublist k t.sessions).length_le
        simp only [Bool.false_eq_true, if_false]
        refine ⟨ih1, ?_⟩
        omega
    | reconnectResolved k =>
      simp only [poolStep, reconnectResolve, connectionCount] at *
      rw [if_pos]
      · exact ⟨ih1, ih2⟩
      · rw [ih1]
        simp
    | reconnectRejected k =>
      simp only [poolStep, reconnectReject, connectionCount] at *
      rw [if_pos]
      · exact ⟨ih1, ih2⟩
      · rw [ih1]
        simp
    | disconnectStart k =>
      simp only [poolStep, poolDisconnectStart, connectionCount] at *
      split
      · exact ⟨ih1, ih2⟩
      · have hlen : (t.sessions.erase k).length ≤ t.sessions.length :=
          (List.erase_sublist k t.sessions).length_le
        refine ⟨ih1, ?_⟩
        simp only []
        omega
    | teardownFinish k ok =>
      simp only [poolStep, poolTeardownFinish, connectionCount] at *
      split
      · exact ⟨ih1, ih2⟩
      · split
        · exact ⟨ih1, ih2⟩
        · exact ⟨ih1, ih2⟩

/-- Witness for C1 (amended) at a pool of capacity 7 holding one
session. -/
theorem pool_connection_count_invariant_witness :
    PoolReachable ⟨7, false⟩ (poolRun ⟨7, false⟩ [.connectStart, .connectResolve "A"])
    ∧ (connectionCount (poolRun ⟨7, false⟩ [.connectStart, .connectResolve "A"])
        = (getSessions (poolRun ⟨7, false⟩ [.connectStart, .connectResolve "A"])).length
      ∧ ((⟨7, false⟩ : PoolConfig).autoReconnect = false →
          connectionCount (poolRun ⟨7, false⟩ [.connectStart, .connectResolve "A"])
            + (poolRun ⟨7, false⟩ [.connectStart, .connectResolve "A"]).pendingConnections
            ≤ (⟨7, false⟩ : PoolConfig).maxConnections)) :=
  ⟨⟨[.connectStart, .connectResolve "A"], rfl⟩,
   pool_connection_count_invariant ⟨7, false⟩
     (poolRun ⟨7, false⟩ [.connectStart, .connectResolve "A"])
     ⟨[.connectStart, .connectResolve "A"], rfl⟩⟩

/-! ## Operation queue theorems (claims C4, C10) -/

/-- The queued-or-running operations of key `k`: the one mid-execution
followed by the waiting chain links, in execution order. -/
def pendingFor {α : Type} (k : String) (s : QueueState α) :
    List (Nat × Except String α) :=
  runningFor k s ++ s.lanes k

/-- Scheduling steps: enqueues and the event loop running/settling chain
links — no `clear()` and no abort-signal firing. -/
def QStep.isSched {α : Type} : QStep α → Bool
  | .enq _ _ _ => true
  | .start _ => true
  | .finish _ => true
  | .clearQ => false
  | .fireSignal => false

/-- Queue invariant tying each lane to the enqueue log: the queue is
neither aborted nor cleared, logged ids are distinct, every settled result
is a logged `(key, id)`, and per key the settled results followed by the
pending operations are exactly the admitted operations in enqueue order,
each carrying its own outcome. -/
def QInv {α : Type} (s : QueueState α) : Prop :=
  s.aborted = false ∧ s.cleared = false
  ∧ (s.log.map (fun e => e.2.1)).Nodup
  ∧ (∀ r ∈ s.results, (r.1, r.2.1) ∈ s.log.map (fun l => (l.1, l.2.1)))
  ∧ ∀ k, resultsFor k s ++ pendingFor k s = logFor k s

theorem logFor_ids_nodup {α : Type} {s : QueueState α}
    (h : (s.log.map (fun e => e.2.1)).Nodup) (k : String) :
    ((logFor k s).map Prod.fst).Nodup := by
  have he : (logFor k s).map Prod.fst
      = (s.log.filter (fun e => e.1 == k)).map (fun e => e.2.1) := by
    simp [logFor, List.map_map]
  rw [he]
  exact List.Nodup.sublist ((List.filter_sublist s.log).map _) h

theorem mem_resultsFor {α : Type} {s : QueueState α} {r : String × Nat × Except String α}
    (hr : r ∈ s.results) (k : String) (hk : r.1 = k) :
    r.2 ∈ resultsFor k s := by
  simp only [resultsFor, List.mem_map]
  exact ⟨r, List.mem_filter.2 ⟨hr, by simp [hk]⟩, rfl⟩

/-- In an invariant state, the id of the operation running on lane `k` has
not settled yet, so its promise resolution really appends a result. -/
theorem settle_fresh {α : Type} {s : QueueState α} (inv : QInv s) {k : String}
    {id : Nat} {out : Except String α} (hrun : s.running k = some (id, out)) :
    s.results.any (fun r => r.2.1 == id) = false := by
  obtain ⟨-, -, hnd, hsub, heq⟩ := inv
  by_contra hany
  rw [Bool.not_eq_false, List.any_eq_true] at hany
  obtain ⟨r, hr, hid⟩ := hany
  rw [beq_iff_eq] at hid
  have hIn1 : (id, r.2.2) ∈ resultsFor r.1 s := by
    have := mem_resultsFor hr r.1 rfl
    rwa [show r.2 = (id, r.2.2) by rw [← hid]] at this
  have hIn2 : (id, out) ∈ pendingFor k s := by
    simp [pendingFor, runningFor, hrun]
  by_cases hkk : r.1 = k
  · subst hkk
    have hnd2 : ((resultsFor r.1 s ++ pendingFor r.1 s).map Prod.fst).Nodup := by
      rw [heq r.1]
      exact logFor_ids_nodup hnd r.1
    rw [List.map_append, List.nodup_append] at hnd2
    have m1 : id ∈ (resultsFor r.1 s).map Prod.fst := List.mem_map.2 ⟨(id, r.2.2), hIn1, rfl⟩
    have m2 : id ∈ (pendingFor r.1 s).map Prod.fst := List.mem_map.2 ⟨(id, out), hIn2, rfl⟩
    exact hnd2.2.2 m1 m2
  · have hL1 : (id, r.2.2) ∈ logFor r.1 s := by
      rw [← heq r.1]
      exact List.mem_append_left _ hIn1
    have hL2 : (id, out) ∈ logFor k s := by
      rw [← heq k]
      exact List.mem_append_right _ hIn2
    simp only [logFor, List.mem_map, List.mem_filter] at hL1 hL2
    obtain ⟨l1, ⟨hl1m, hl1k⟩, hl1v⟩ := hL1
    obtain ⟨l2, ⟨hl2m, hl2k⟩, hl2v⟩ := hL2
    have : l1 = l2 := by
      refine List.inj_on_of_nodup_map hnd hl1m hl2m ?_
      show l1.2.1 = l2.2.1
      rw [show l1.2.1 = (l1.2).1 from rfl, hl1v, show l2.2.1 = (l2.2).1 from rfl, hl2v]
    apply hkk
    rw [beq_iff_eq] at hl1k hl2k
    rw [← hl1k, this, hl2k]

/-- `enqueue` preserves the queue invariant: it either rejects before
touching any lane, or appends the operation to both its lane and the
log. -/
theorem qInv_enq {α : Type} {s : QueueState α} (inv : QInv s)
    (k : String) (id : Nat) (out : Except String α) :
    QInv (qEnqueue s k id out) := by
  obtain ⟨hab, hcl, hnd, hsub, heq⟩ := inv
  by_cases hu : usedId s id = true
  · rw [qEnqueue, if_pos hu]
    exact ⟨hab, hcl, hnd, hsub, heq⟩
  · rw [qEnqueue, if_neg hu, if_neg (by simp [hab]), if_neg (by simp [hcl])]
    have hidfree : ¬ id ∈ s.log.map (fun e => e.2.1) := by
      intro hmem
      apply hu
      rw [List.mem_map] at hmem
      obtain ⟨l, hl, hlid⟩ := hmem
      simp only [usedId, Bool.or_eq_true, List.any_eq_true]
      exact Or.inl ⟨l, hl, by simp [hlid]⟩
    refine ⟨hab, hcl, ?_, ?_, ?_⟩
    · simp only [List.map_append, List.map_cons, List.map_nil]
      rw [List.nodup_append]
      exact ⟨hnd, List.nodup_singleton _, by simpa using hidfree⟩
    · intro r hr
      simp only [List.map_append]
      exact List.mem_append_left _ (hsub r hr)
    · intro k0
      have hres : resultsFor k0 ({ s with
          depths := Function.update s.depths k (s.depths k + 1)
          lanes := Function.update s.lanes k (s.lanes k ++ [(id, out)])
          log := s.log ++ [(k, id, out)] } : QueueState α) = resultsFor k0 s := rfl
      have hrunning : runningFor k0 ({ s with
          depths := Function.update s.depths k (s.depths k + 1)
          lanes := Function.update s.lanes k (s.lanes k ++ [(id, out)])
          log := s.log ++ [(k, id, out)] } : QueueState α) = runningFor k0 s := rfl
      by_cases hk : k0 = k
      · subst hk
        simp only [pendingFor, hres, hrunning, logFor, List.filter_append,
          List.map_append, Function.update_same]
        rw [show (List.filter (fun e => e.1 == k0) [(k0, id, out)]) = [(k0, id, out)] by simp]
        have := heq k0
        simp only [pendingFor, logFor] at this
        simp [← List.append_assoc, this]
      · simp only [pendingFor, hres, hrunning, logFor, List.filter_append,
          List.map_append, Function.update_noteq hk]
        rw [show (List.filter (fun e => e.1 == k0) [(k, id, out)]) = [] by
          simp [Ne.symm hk]]
        have := heq k0
        simp only [pendingFor, logFor] at this
        simp [this]

/-- Running the next chain link preserves the queue invariant: the lane
head moves into the running slot. -/
theorem qInv_start {α : Type} {s : QueueState α} (inv : QInv s) (k : String) :
    QInv (qStart s k) := by
  obtain ⟨hab, hcl, hnd, hsub, heq⟩ := inv
  rw [qStart]
  cases hrun : s.running k with
  | some x => exact ⟨hab, hcl, hnd, hsub, heq⟩
  | none =>
    cases hlane : s.lanes k with
    | nil => exact ⟨hab, hcl, hnd, hsub, heq⟩
    | cons hd rest =>
      obtain ⟨id, out⟩ := hd
      dsimp only
      rw [if_neg (by simp [hab]), if_neg (by simp [hcl])]
      refine ⟨hab, hcl, hnd, hsub, ?_⟩
      intro k0
      by_cases hk : k0 = k
      · subst hk
        simp only [pendingFor, resultsFor, runningFor, logFor, Function.update_same]
        have := heq k0
        simp only [pendingFor, resultsFor, runningFor, logFor, hrun, hlane,
          Option.toList_none, Option.toList_some] at this
        simpa using this
      · simp only [pendingFor, resultsFor, runningFor, logFor,
          Function.update_noteq hk]
        have := heq k0
        simp only [pendingFor, resultsFor, runningFor, logFor] at this
        exact this

/-- Settling the running operation preserves the queue invariant: its own
outcome is appended to the results. -/
theorem qInv_finish {α : Type} {s : QueueState α} (inv : QInv s) (k : String) :
    QInv (qFinish s k) := by
  have hfresh := @settle_fresh α s inv k
  obtain ⟨hab, hcl, hnd, hsub, heq⟩ := inv
  rw [qFinish]
  cases hrun : s.running k with
  | none => exact ⟨hab, hcl, hnd, hsub, heq⟩
  | some x =>
    obtain ⟨id, out⟩ := x
    dsimp only
    have hset : settleResult s.results k id out = s.results ++ [(k, id, out)] := by
      rw [settleResult, if_neg (by simp [hfresh hrun])]
    have hlogmem : (id, out) ∈ logFor k s := by
      rw [← heq k]
      refine List.mem_append_right _ ?_
      simp [pendingFor, runningFor, hrun]
    refine ⟨hab, hcl, hnd, ?_, ?_⟩
    · intro r hr
      simp only [hset, List.mem_append, List.mem_singleton] at hr
      cases hr with
      | inl h => exact hsub r h
      | inr h =>
        subst h
        simp only [logFor, List.mem_map, List.mem_filter] at hlogmem
        obtain ⟨l, ⟨hlm, hlk⟩, hlv⟩ := hlogmem
        rw [List.mem_map]
        refine ⟨l, hlm, ?_⟩
        rw [beq_iff_eq] at hlk
        show (l.1, l.2.1) = (k, id)
        rw [hlk, show l.2.1 = (l.2).1 from rfl, hlv]
    · intro k0
      by_cases hk : k0 = k
      · subst hk
        simp only [pendingFor, resultsFor, runningFor, logFor, Function.update_same,
          hset, List.filter_append, List.map_append]
        rw [show (List.filter (fun e => e.1 == k0) [(k0, id, out)]) = [(k0, id, out)] by simp]
        have := heq k0
        simp only [pendingFor, resultsFor, runningFor, logFor, hrun,
          Option.toList_some] at this
        simp only [Option.toList_none, List.map_cons, List.map_nil]
        rw [← this]
        simp
      · simp only [pendingFor, resultsFor, runningFor, logFor, Function.update_noteq hk,
          hset, List.filter_append]
        rw [show (List.filter (fun e => e.1 == k0) [(k, id, out)]) = [] by
          simp [Ne.symm hk]]
        have := heq k0
        simp only [pendingFor, resultsFor, runningFor, logFor] at this
        simpa using this

/-- Every state reached by enqueues and scheduling steps alone satisfies
the queue invariant. -/
theorem qInv_run {α : Type} (opts : OperationQueueOptions) (steps : List (QStep α))
    (h : ∀ st ∈ steps, QStep.isSched st = true) :
    QInv (qrun opts steps) := by
  induction steps using List.reverseRecOn with
  | nil =>
    refine ⟨rfl, rfl, by simp [qrun, initQueue], by simp [qrun, initQueue], fun k => rfl⟩
  | append_singleton l a ih =>
    have hl : ∀ st ∈ l, QStep.isSched st = true := fun st hst =>
      h st (List.mem_append_left _ hst)
    have ha : QStep.isSched a = true := h a (List.mem_append_right _ (by simp))
    have ihl := ih hl
    rw [qrun, List.foldl_append, List.foldl_cons, List.foldl_nil]
    rw [show List.foldl (qstep opts) initQueue l = qrun opts l from rfl]
    cases a with
    | enq k id out => exact qInv_enq ihl k id out
    | start k => exact qInv_start ihl k
    | finish k => exact qInv_finish ihl k
    | clearQ => simp [QStep.isSched] at ha
    | fireSignal => simp [QStep.isSched] at ha

/-- C4: in any run made of enqueues and scheduler steps (no `clear`, no
abort), the settled results of key `k` followed by its still-pending
operations equal, in order and with each operation's own outcome, the
operations enqueued on `k` — same-key operations settle in strict enqueue
order and one operation's failure rejects only its own result handle
(concretely: after a failure on key "X" the next "X" operation still runs
and succeeds), while operations on different keys may complete in either
relative order (both orders exhibited). -/
theorem queue_fifo_continue_on_error {α : Type} (opts : OperationQueueOptions)
    (steps : List (QStep α)) (k : String)
    (h : ∀ st ∈ steps, QStep.isSched st = true) :
    (resultsFor k (qrun opts steps) ++ pendingFor k (qrun opts steps)
        = logFor k (qrun opts steps))
    ∧ (qrun ({} : OperationQueueOptions)
        [QStep.enq "X" 1 (.error "boom"), .enq "X" 2 (.ok 20), .start "X", .finish "X",
         .start "X", .finish "X"]).results
        = [("X", 1, .error "boom"), ("X", 2, .ok 20)]
    ∧ (qrun ({} : OperationQueueOptions)
        [QStep.enq "X" 1 (.ok 10), .enq "Y" 2 (.ok 20), .start "X", .start "Y",
         .finish "Y", .finish "X"]).results
        = [("Y", 2, .ok 20), ("X", 1, .ok 10)]
    ∧ (qrun ({} : OperationQueueOptions)
        [QStep.enq "X" 1 (.ok 10), .enq "Y" 2 (.ok 20), .start "X", .start "Y",
         .finish "X", .finish "Y"]).results
        = [("X", 1, .ok 10), ("Y", 2, .ok 20)] :=
  ⟨((qInv_run opts steps h).2.2.2.2) k, rfl, rfl, rfl⟩

/-- Witness for C4 at a concrete run with a failing first operation and a
second operation mid-execution. -/
theorem queue_fifo_continue_on_error_witness :
    (∀ st ∈ ([QStep.enq "X" 1 (.error "boom"), .enq "X" 2 (.ok 20), .start "X",
        .finish "X", .start "X"] : List (QStep Nat)), QStep.isSched st = true)
    ∧ ((resultsFor "X" (qrun ({} : OperationQueueOptions)
          [QStep.enq "X" 1 (.error "boom"), .enq "X" 2 (.ok 20), .start "X",
           .finish "X", .start "X"])
        ++ pendingFor "X" (qrun ({} : OperationQueueOptions)
          [QStep.enq "X" 1 (.error "boom"), .enq "X" 2 (.ok 20), .start "X",
           .finish "X", .start "X"])
        = logFor "X" (qrun ({} : OperationQueueOptions)
          [QStep.enq "X" 1 (.error "boom"), .enq "X" 2 (.ok 20), .start "X",
           .finish "X", .start "X"]))
      ∧ (qrun ({} : OperationQueueOptions)
          [QStep.enq "X" 1 (.error "boom"), .enq "X" 2 (.ok 20), .start "X", .finish "X",
           .start "X", .finish "X"]).results
          = [("X", 1, .error "boom"), ("X", 2, .ok 20)]
      ∧ (qrun ({} : OperationQueueOptions)
          [QStep.enq "X" 1 (.ok 10), .enq "Y" 2 (.ok 20), .start "X", .start "Y",
           .finish "Y", .finish "X"]).results
          = [("Y", 2, .ok 20), ("X", 1, .ok 10)]
      ∧ (qrun ({} : OperationQueueOptions)
          [QStep.enq "X" 1 (.ok 10), .enq "Y" 2 (.ok 20), .start "X", .start "Y",
           .finish "X", .finish "Y"]).results
          = [("X", 1, .ok 10), ("Y", 2, .ok 20)]) :=
  ⟨by intro st hst; fin_cases hst <;> rfl,
   queue_fifo_continue_on_error ({} : OperationQueueOptions)
     [QStep.enq "X" 1 (.error "boom"), .enq "X" 2 (.ok 20), .start "X",
      .finish "X", .start "X"] "X"
     (by intro st hst; fin_cases hst <;> rfl)⟩

/-- `enqueue` never touches the execution trace or the running slots. -/
theorem qEnqueue_trace_running {α : Type} (s : QueueState α) (k : String) (id : Nat)
    (out : Except String α) :
    (qEnqueue s k id out).trace = s.trace ∧ (qEnqueue s k id out).running = s.running := by
  rw [qEnqueue]
  split_ifs <;> exact ⟨rfl, rfl⟩

/-- The abort signal never touches the execution trace or the running
slots. -/
theorem qFire_trace_running {α : Type} (opts : OperationQueueOptions) (s : QueueState α) :
    (qFire opts s).trace = s.trace ∧ (qFire opts s).running = s.running := by
  rw [qFire]
  split_ifs <;> exact ⟨rfl, rfl⟩

/-- The trace scan for key `k` tracks exactly the id currently running on
lane `k`: chain links of one key never overlap. -/
theorem serial_invariant {α : Type} (opts : OperationQueueOptions)
    (steps : List (QStep α)) (k : String) :
    (qrun opts steps).trace.foldl (serialScan k) (some none)
      = some (((qrun opts steps).running k).map Prod.fst) := by
  induction steps using List.reverseRecOn with
  | nil => rfl
  | append_singleton l a ih =>
    rw [qrun, List.foldl_append, List.foldl_cons, List.foldl_nil]
    rw [show List.foldl (qstep opts) initQueue l = qrun opts l from rfl]
    set t := qrun opts l with ht
    cases a with
    | enq k' id out =>
      show (qEnqueue t k' id out).trace.foldl (serialScan k) (some none)
        = some (((qEnqueue t k' id out).running k).map Prod.fst)
      rw [(qEnqueue_trace_running t k' id out).1, (qEnqueue_trace_running t k' id out).2]
      exact ih
    | start k' =>
      show (qStart t k').trace.foldl (serialScan k) (some none)
        = some (((qStart t k').running k).map Prod.fst)
      rw [qStart]
      cases hrun : t.running k' with
      | some x => exact ih
      | none =>
        cases hlane : t.lanes k' with
        | nil => exact ih
        | cons hd rest =>
          obtain ⟨id, out⟩ := hd
          dsimp only
          split_ifs with h1 h2
          · exact ih
          · exact ih
          · rw [List.foldl_append, List.foldl_cons, List.foldl_nil, ih]
            by_cases hk : k' = k
            · subst hk
              rw [hrun]
              simp [serialScan, Function.update_same]
            · simp [serialScan, hk, Function.update_noteq (Ne.symm hk)]
    | finish k' =>
      show (qFinish t k').trace.foldl (serialScan k) (some none)
        = some (((qFinish t k').running k).map Prod.fst)
      rw [qFinish]
      cases hrun : t.running k' with
      | none => exact ih
      | some x =>
        obtain ⟨id, out⟩ := x
        dsimp only
        rw [List.foldl_append, List.foldl_cons, List.foldl_nil, ih]
        by_cases hk : k' = k
        · subst hk
          rw [hrun]
          simp [serialScan, Function.update_same]
        · simp [serialScan, hk, Function.update_noteq (Ne.symm hk)]
    | clearQ => exact ih
    | fireSignal =>
      show (qFire opts t).trace.foldl (serialScan k) (some none)
        = some (((qFire opts t).running k).map Prod.fst)
      rw [(qFire_trace_running opts t).1, (qFire_trace_running opts t).2]
      exact ih

/-- C10: `maxConcurrent` is accepted in `OperationQueueOptions` but never
read — a queue built with any `maxConcurrent` value produces, on every
input sequence, exactly the same state as one built without the option;
and same-key operations are strictly serialized (one at a time) in every
run regardless of the value supplied. -/
theorem operation_queue_maxConcurrent_unread {α : Type} (v : Option Nat) (hasSig : Bool)
    (steps : List (QStep α)) :
    qrun ⟨v, hasSig⟩ steps = qrun ⟨none, hasSig⟩ steps
    ∧ ∀ k, serializedFor k (qrun ⟨v, hasSig⟩ steps).trace = true := by
  constructor
  · have hstep : @qstep α ⟨v, hasSig⟩ = @qstep α ⟨none, hasSig⟩ := by
      funext s st
      cases st <;> rfl
    rw [qrun, qrun, hstep]
  · intro k
    rw [serializedFor, serial_invariant]
    rfl

end WebBleKit
